import Mathlib

/-!
Verification development for the invoice-extractor repository: a shallow
embedding of the extraction orchestration and ledger-synthesis engine
described in the specification, together with the React frontend file
selection and upload handlers from src/App.jsx, and proofs of the
behavioural properties claimed about them.

The backend engine (FastAPI service with the Extraction Client, Batch Job
Engine and Ledger Synthesis Engine) is not present in the repository
snapshot; only its documentation, the frontend and the setup guides are.
Definitions for those components are therefore modelled from the spec, as
marked in their doc comments. The frontend handlers are translated
directly from src/App.jsx.
-/

namespace InvoiceExtractor

/-! ## Data model (spec section 3) -/

/-- Modelled from the spec: one line item of an invoice
(InvoiceFields.line_items element). All decimal amounts carry the fixed
two-decimal precision of the spec and are represented exactly as integer
hundredths. -/
structure LineItem where
  description : String
  quantity : Option ℤ
  unit_price : Option ℤ
  amount : Option ℤ
  deriving Repr, DecidableEq

/-- Modelled from the spec: the InvoiceFields value object produced per
file. Numeric fields are decimals with two places, represented exactly as
integer hundredths; an absent field is an explicit `none` (the spec's
"unknown"), never silently zero. -/
structure InvoiceFields where
  party_name : String
  party_tax_id : Option String
  invoice_number : Option String
  invoice_date : Option String
  taxable_amount : Option ℤ
  cgst_amount : Option ℤ
  sgst_amount : Option ℤ
  igst_amount : Option ℤ
  total_amount : Option ℤ
  currency : Option String
  line_items : List LineItem
  deriving Repr, DecidableEq

/-- Modelled from the spec: the per-file extraction status
(ExtractionResult.status is Success or Failed; both are terminal). -/
inductive ResultStatus where
  | Success
  | Failed
  deriving Repr, DecidableEq

/-- Modelled from the spec: ExtractionResult, one immutable instance per
file per job. -/
structure ExtractionResult where
  source_file_id : Nat
  fields : Option InvoiceFields
  status : ResultStatus
  error_detail : Option String
  provider_used : Option String
  from_cache : Bool
  deriving Repr, DecidableEq

/-- Modelled from the spec: job lifecycle states
Pending, Processing, Completed, Failed. -/
inductive JobStatus where
  | Pending
  | Processing
  | Completed
  | Failed
  deriving Repr, DecidableEq

/-- Modelled from the spec: transaction_type of a job, Sales or Purchase. -/
inductive TransactionType where
  | Sales
  | Purchase
  deriving Repr, DecidableEq

/-- Modelled from the spec: the Job record owned by the Batch Job Engine. -/
structure Job where
  job_id : String
  status : JobStatus
  file_count : Nat
  results : List ExtractionResult
  company_name : String
  transaction_type : TransactionType
  deriving Repr, DecidableEq

/-! ## Frontend file selection and upload (src/App.jsx) -/

/-- A browser File object as used by src/App.jsx: the handlers read its
`name` and `type` (MIME type); `content` stands for the underlying bytes,
which the selection logic never inspects. -/
structure JsFile where
  name : String
  type : String
  content : List Nat
  deriving Repr, DecidableEq

/-- The MIME allow-list of handleFilesSelection (src/App.jsx line 29). -/
def validTypes : List String :=
  ["image/jpeg", "image/jpg", "image/png", "application/pdf"]

/-- handleFilesSelection from src/App.jsx lines 26-52, projected onto the
selected-files list it computes (the argument of setSelectedFiles):
filter the chosen files to the supported MIME types; when adding to a
non-empty selection, also drop any file whose name is already present,
and append the remainder to the existing selection. -/
def handleFilesSelection (selectedFiles : List JsFile) (files : List JsFile)
    (shouldAdd : Bool) : List JsFile :=
  let supportedFiles := files.filter (fun f => f.type ∈ validTypes)
  if shouldAdd ∧ selectedFiles.length > 0 then
    let existingNames := selectedFiles.map (fun f => f.name)
    let newFiles := supportedFiles.filter (fun f => f.name ∉ existingNames)
    selectedFiles ++ newFiles
  else
    supportedFiles

/-- Observable effect of one invocation of handleUpload or
handleBulkUpload in src/App.jsx: the error message it leaves, whether an
HTTP request was sent, and whether a loading state was entered. -/
structure UploadOutcome where
  error : Option String
  requestSent : Bool
  enteredLoading : Bool
  deriving Repr, DecidableEq

/-- handleBulkUpload from src/App.jsx lines 129-193: with an empty
selection it sets the error and returns before any loading state or
request; otherwise it enters the loading state for the chosen format and
posts the files (`requestOk` abstracts whether the axios call
succeeded). -/
def handleBulkUpload (selectedFiles : List JsFile) (format : String)
    (requestOk : Bool) : UploadOutcome :=
  if selectedFiles.length = 0 then
    { error := some "Please select at least one file first"
      requestSent := false
      enteredLoading := false }
  else
    { error := if requestOk then none else some "An error occurred during extraction."
      requestSent := true
      enteredLoading := true }

/-- handleUpload from src/App.jsx lines 93-127: with an empty selection it
sets the error and returns before setIsLoading and before any request;
with one file it posts to the single-extract endpoint; with several it
delegates to handleBulkUpload with the csv format. -/
def handleUpload (selectedFiles : List JsFile) (requestOk : Bool) : UploadOutcome :=
  if selectedFiles.length = 0 then
    { error := some "Please select at least one file first"
      requestSent := false
      enteredLoading := false }
  else if selectedFiles.length = 1 then
    { error := if requestOk then none else some "An error occurred during extraction."
      requestSent := true
      enteredLoading := true }
  else
    let bulk := handleBulkUpload selectedFiles "csv" requestOk
    { bulk with enteredLoading := true }

/-! ## Extraction Client (spec section 4.2), modelled from the spec -/

/-- Modelled from the spec: the suffix of the text starting at the first
occurrence of the given character, or none when the character is absent. -/
def suffixFromChar (c : Char) : List Char → Option (List Char)
  | [] => none
  | a :: as => if a = c then some (a :: as) else suffixFromChar c as

/-- Modelled from the spec: the prefix of the text ending at the last
occurrence of the given character, or none when the character is absent. -/
def prefixToChar (c : Char) (t : List Char) : Option (List Char) :=
  match suffixFromChar c t.reverse with
  | some r => some r.reverse
  | none => none

/-- Modelled from the spec (4.2 step 4): the substring of the provider
text from the first opening brace to the last closing brace; none when
either brace is absent (also when the last closing brace precedes the
first opening brace, where no such substring exists). -/
def jsonSlice (t : List Char) : Option (List Char) :=
  match suffixFromChar '{' t with
  | some s => prefixToChar '}' s
  | none => none

/-- Modelled from the spec (4.2 step 4): parse the provider response text
defensively. Locate the brace-delimited substring and run the JSON field
parser (abstracted as `parse`) on exactly that substring; a failure to
parse, or absence of the braces, is the error "unparseable provider
response" rather than an exception. -/
def parseProviderResponse (parse : List Char → Option InvoiceFields)
    (t : List Char) : Except String InvoiceFields :=
  match jsonSlice t with
  | some s =>
    match parse s with
    | some f => Except.ok f
    | none => Except.error "unparseable provider response"
  | none => Except.error "unparseable provider response"

/-- Modelled from the spec: the outcome of submitting one request to a
single provider (free-form text on success, or a transient-class
failure). -/
inductive ProviderReply where
  | replyText (t : List Char)
  | transientFailure
  | quotaExceeded
  deriving Repr, DecidableEq

/-- Modelled from the spec (4.2 steps 2-4): loop over the available
providers in priority order. An empty list is the Exhausted outcome,
reported as the error "all providers exhausted"; a transient failure or
quota-exceeded reply moves on to the next provider; returned text is
handled by `handle` (parsing), whose error ends the loop. -/
def runProviderLoop (handle : List Char → Except String α) :
    List (String × ProviderReply) → Except String (String × α)
  | [] => Except.error "all providers exhausted"
  | (pid, reply) :: rest =>
    match reply with
    | ProviderReply.replyText t =>
      match handle t with
      | Except.ok a => Except.ok (pid, a)
      | Except.error e => Except.error e
    | ProviderReply.transientFailure => runProviderLoop handle rest
    | ProviderReply.quotaExceeded => runProviderLoop handle rest

/-- Modelled from the spec: the Content Cache, a mapping from content
fingerprint to previously extracted InvoiceFields. -/
def ContentCache : Type := List (String × InvoiceFields)

/-- Modelled from the spec: Content Cache lookup by content fingerprint. -/
def cacheLookup (cache : ContentCache) (contentHash : String) : Option InvoiceFields :=
  match cache with
  | [] => none
  | (k, f) :: rest => if k = contentHash then some f else cacheLookup rest contentHash

/-- Modelled from the spec (4.2): extract one file. Unless bypassCache,
a cache hit returns the cached InvoiceFields as a Success result with
from_cache true; otherwise the provider loop runs (the replies available
for this content are `providers`, the JSON parser is `parse`), a Success
is written to the cache keyed by the content fingerprint (unless
bypassCache), and a loop error becomes a Failed result. -/
def extract (parse : List Char → Option InvoiceFields)
    (providers : List (String × ProviderReply)) (source_file_id : Nat)
    (cache : ContentCache) (contentHash : String) (bypassCache : Bool) :
    ExtractionResult × ContentCache :=
  let fresh : ExtractionResult × ContentCache :=
    match runProviderLoop (fun t => parseProviderResponse parse t) providers with
    | Except.ok (pid, f) =>
      ({ source_file_id := source_file_id, fields := some f,
         status := ResultStatus.Success, error_detail := none,
         provider_used := some pid, from_cache := false },
       if bypassCache then cache else (contentHash, f) :: cache)
    | Except.error e =>
      ({ source_file_id := source_file_id, fields := none,
         status := ResultStatus.Failed, error_detail := some e,
         provider_used := none, from_cache := false }, cache)
  if bypassCache then fresh
  else
    match cacheLookup cache contentHash with
    | some f =>
      ({ source_file_id := source_file_id, fields := some f,
         status := ResultStatus.Success, error_detail := none,
         provider_used := none, from_cache := true }, cache)
    | none => fresh

/-! ## Batch Job Engine (spec section 4.3), modelled from the spec -/

/-- Recursion worker for chunkList: the fuel argument makes the recursion
structural; chunkList passes fuel equal to the list length, which the
take-drop recursion never exhausts. -/
def chunkListAux (n : Nat) : Nat → List α → List (List α)
  | _, [] => []
  | 0, l => [l]
  | fuel + 1, x :: xs =>
    if n = 0 then [x :: xs]
    else (x :: xs).take n :: chunkListAux n fuel ((x :: xs).drop n)

/-- Modelled from the spec (4.3): group a list into batches of the
configured size (a batch size of zero degenerates to a single batch). -/
def chunkList (n : Nat) (l : List α) : List (List α) :=
  chunkListAux n l.length l

/-- A Success ExtractionResult produced from one structured entry of a
batch response. -/
def successEntry (pid : String) (i : Nat) (f : InvoiceFields) : ExtractionResult :=
  { source_file_id := i, fields := some f, status := ResultStatus.Success,
    error_detail := none, provider_used := some pid, from_cache := false }

/-- A Failed ExtractionResult with the given error detail. -/
def failedEntry (i : Nat) (e : String) : ExtractionResult :=
  { source_file_id := i, fields := none, status := ResultStatus.Failed,
    error_detail := some e, provider_used := none, from_cache := false }

/-- Modelled from the spec (4.3): positional pairing of a batch of files
with the structured entries of the provider response; the first
min(entries, files) files get Success results in order, the trailing
shortfall gets Failed results (the spec fixes no message for the
shortfall; "batch response shortfall" is used here). -/
def pairEntries (pid : String) :
    List (Nat × β) → List InvoiceFields → List ExtractionResult
  | [], _ => []
  | (i, _) :: bs, f :: fs => successEntry pid i f :: pairEntries pid bs fs
  | (i, _) :: bs, [] =>
    { failedEntry i "batch response shortfall" with provider_used := some pid } ::
      pairEntries pid bs []

/-- Modelled from the spec (4.3): submit one batch through the Extraction
Client in a single provider call; `parseEntries` extracts the parseable
structured entries from the response text, `providersFor` gives the
provider replies available for this payload. A loop error (providers
exhausted) fails every file of the batch with that error. -/
def processBatch (parseEntries : List Char → List InvoiceFields)
    (providersFor : List β → List (String × ProviderReply))
    (batch : List (Nat × β)) : List ExtractionResult :=
  match runProviderLoop (fun t => Except.ok (parseEntries t))
      (providersFor (batch.map Prod.snd)) with
  | Except.ok (pid, entries) => pairEntries pid batch entries
  | Except.error e => batch.map (fun p => failedEntry p.1 e)

/-- Modelled from the spec (4.3): process a job by numbering the files in
submission order, grouping them into batches of the configured size, and
concatenating the per-batch results. -/
def processJob (parseEntries : List Char → List InvoiceFields)
    (providersFor : List β → List (String × ProviderReply))
    (batchSize : Nat) (files : List β) : List ExtractionResult :=
  ((chunkList batchSize files.enum).map
    (processBatch parseEntries providersFor)).flatten

/-- Modelled from the spec (4.3): createJob persists a new Job in Pending
with no results yet. -/
def createJob (job_id : String) (fileCount : Nat) (company : String)
    (tt : TransactionType) : Job :=
  { job_id := job_id, status := JobStatus.Pending, file_count := fileCount,
    results := [], company_name := company, transaction_type := tt }

/-- Modelled from the spec (4.3): record one terminal per-file result on
the job; the job reaches Completed exactly when the recorded results
cover every file, whatever the individual outcomes. -/
def recordResult (j : Job) (r : ExtractionResult) : Job :=
  { j with results := j.results ++ [r],
           status := if j.results.length + 1 = j.file_count
                     then JobStatus.Completed else JobStatus.Processing }

/-- Modelled from the spec (4.3): run one job end to end; the job moves to
Processing on dispatch and each per-file result is recorded in turn. -/
def runJob (parseEntries : List Char → List InvoiceFields)
    (providersFor : List β → List (String × ProviderReply)) (batchSize : Nat)
    (files : List β) (job_id company : String) (tt : TransactionType) : Job :=
  (processJob parseEntries providersFor batchSize files).foldl recordResult
    { createJob job_id files.length company tt with status := JobStatus.Processing }

/-- The three-provider registry of the repository documentation with every
provider replying quota-exceeded. -/
def threeQuotaExceeded : List (String × ProviderReply) :=
  [("gemini-flash", ProviderReply.quotaExceeded),
   ("gpt-4o", ProviderReply.quotaExceeded),
   ("claude", ProviderReply.quotaExceeded)]

/-! ## Ledger Synthesis Engine (spec section 4.4), modelled from the spec -/

/-- Round the ratio p / q (for q positive) to the nearest integer, halves
up, in exact integer arithmetic; the bridge lemma roundNearest_eq_round
identifies it with rounding the rational p / q. -/
def roundNearest (p q : ℤ) : ℤ := (2 * p + q) / (2 * q)

/-- Modelled from the spec (4.4 step 2): the effective GST rate of one
invoice. When cgst and sgst are both present and taxable_amount is
positive the rate is round((cgst + sgst) / taxable * 100); otherwise,
when igst is present, round(igst / taxable * 100); when taxable_amount is
missing or not positive, or no tax field is present, no rate (the invoice
gets no tax ledger entries). -/
def effectiveGstRate (f : InvoiceFields) : Option ℤ :=
  match f.taxable_amount with
  | none => none
  | some t =>
    if 0 < t then
      match f.cgst_amount, f.sgst_amount with
      | some c, some s => some (roundNearest ((c + s) * 100) t)
      | _, _ =>
        match f.igst_amount with
        | some i => some (roundNearest (i * 100) t)
        | none => none
    else none

/-- The Sales / Purchase label used in ledger and voucher names. -/
def transactionTypeLabel : TransactionType → String
  | TransactionType.Sales => "Sales"
  | TransactionType.Purchase => "Purchase"

/-- Modelled from the spec (4.4 step 3): the deterministic name of the tax
ledger for one GST rate. -/
def taxLedgerName (tt : TransactionType) (rate : ℤ) : String :=
  transactionTypeLabel tt ++ " - GST " ++ toString rate ++ "%"

/-- Modelled from the spec (4.4 step 5): the principal account ledger
name. -/
def principalLedgerName : TransactionType → String
  | TransactionType.Sales => "Sales Account"
  | TransactionType.Purchase => "Purchase Account"

/-- Modelled from the spec (4.4 step 4): the group holding party ledgers. -/
def partyGroupName : TransactionType → String
  | TransactionType.Sales => "Sundry Debtors"
  | TransactionType.Purchase => "Sundry Creditors"

/-- Modelled from the spec (4.4 step 5): the group holding the principal
account ledger. -/
def principalGroupName : TransactionType → String
  | TransactionType.Sales => "Sales Accounts"
  | TransactionType.Purchase => "Purchase Accounts"

/-- Modelled from the spec (4.4 step 1): the InvoiceFields of the Success
results, in original order; Failed files are excluded. -/
def successFields (results : List ExtractionResult) : List InvoiceFields :=
  results.filterMap (fun r =>
    match r.status with
    | ResultStatus.Success => r.fields
    | ResultStatus.Failed => none)

/-- Modelled from the spec (4.4 step 2): the distinct GST rates observed
across the Success results of a job, in first-encounter order. -/
def gstRatesFound (results : List ExtractionResult) : List ℤ :=
  ((successFields results).filterMap effectiveGstRate).dedup

/-- Modelled from the spec: the ledger master record of the
LedgerDocument ledger mapping. -/
structure LedgerInfo where
  parent_group : String
  tax_rate : Option ℤ
  deriving Repr, DecidableEq

/-- Modelled from the spec: one signed double-entry line of a voucher. -/
structure VoucherEntry where
  ledger_name : String
  amount : ℤ
  is_debit : Bool
  deriving Repr, DecidableEq

/-- Modelled from the spec: one balanced transaction record. -/
structure Voucher where
  date : Option String
  voucher_type : String
  number : Option String
  party_ledger : String
  narration : String
  entries : List VoucherEntry
  deriving Repr, DecidableEq

/-- Modelled from the spec: the synthesis output document with group and
ledger masters, ordered vouchers and the success / failure summary. -/
structure LedgerDocument where
  groups : List (String × String)
  ledgers : List (String × LedgerInfo)
  vouchers : List Voucher
  successful_count : Nat
  failed_count : Nat
  deriving Repr, DecidableEq

/-- Modelled from the spec (4.4 step 6): sign of the party entry per
transaction direction. -/
def transactionSign : TransactionType → ℤ
  | TransactionType.Sales => 1
  | TransactionType.Purchase => -1

/-- One voucher entry; an entry is a debit when its signed amount is
positive (the deemed-positive convention of the Tally XML). -/
def mkEntry (name : String) (amount : ℤ) : VoucherEntry :=
  { ledger_name := name, amount := amount, is_debit := decide (0 < amount) }

/-- Modelled from the spec (4.4 step 6): the tax entries of one voucher:
one entry per nonzero, present tax component, each against the rate
ledger of the invoice; no entries when no rate was detected. These
entries never depend on total_amount, so a rounding remainder is never
absorbed here. -/
def voucherTaxEntries (tt : TransactionType) (f : InvoiceFields) :
    List VoucherEntry :=
  match effectiveGstRate f with
  | none => []
  | some r =>
    (([f.cgst_amount, f.sgst_amount, f.igst_amount].filterMap id).filter
        (fun a => a ≠ 0)).map
      (fun a => mkEntry (taxLedgerName tt r) (-(transactionSign tt) * a))

/-- Modelled from the spec (4.4 step 6): one voucher per Success result.
The party entry carries the full total_amount with the transaction
direction sign, the tax entries carry the extracted tax components, and
the principal entry carries the negated remainder of the total over the
tax components: this equals -taxable_amount (signed) when the extracted
amounts are consistent and otherwise absorbs the entire remainder, never
a tax entry, so the voucher always balances. -/
def makeVoucher (tt : TransactionType) (f : InvoiceFields) : Voucher :=
  let sgn := transactionSign tt
  let total := f.total_amount.getD 0
  let taxEntries := voucherTaxEntries tt f
  let taxSum := (taxEntries.map (fun e => e.amount)).sum
  { date := f.invoice_date
    voucher_type := transactionTypeLabel tt
    number := f.invoice_number
    party_ledger := f.party_name
    narration := transactionTypeLabel tt ++ " Invoice"
    entries := mkEntry f.party_name (sgn * total) ::
      taxEntries ++ [mkEntry (principalLedgerName tt) (-(sgn * total) - taxSum)] }

/-- Modelled from the spec (4.4): synthesize the LedgerDocument of a
Completed job: Success results only; exactly one tax ledger per distinct
observed rate; one party ledger per distinct party name; one principal
ledger; one voucher per Success result in original file order. -/
def synthesizeLedger (j : Job) : LedgerDocument :=
  let tt := j.transaction_type
  let fields := successFields j.results
  let rates := gstRatesFound j.results
  { groups := [(partyGroupName tt, "Current Assets"),
               (principalGroupName tt, "Primary"),
               ("Duties & Taxes", "Current Liabilities")]
    ledgers :=
      ((fields.map (fun f => f.party_name)).dedup).map
          (fun n => (n, { parent_group := partyGroupName tt, tax_rate := none })) ++
        [(principalLedgerName tt,
          { parent_group := principalGroupName tt, tax_rate := none })] ++
        rates.map (fun r =>
          (taxLedgerName tt r,
           { parent_group := "Duties & Taxes", tax_rate := some r }))
    vouchers := fields.map (makeVoucher tt)
    successful_count := fields.length
    failed_count := j.results.length - fields.length }

/-- The tax ledgers of a LedgerDocument: the ledger masters carrying a
tax rate. -/
def taxLedgersOf (doc : LedgerDocument) : List (String × LedgerInfo) :=
  doc.ledgers.filter (fun p => p.2.tax_rate.isSome)

/-- A concrete InvoiceFields value used by the closed witness theorems. -/
def sampleFields : InvoiceFields :=
  { party_name := "SAMSON MARITIME LIMITED."
    party_tax_id := none
    invoice_number := some "INV001"
    invoice_date := some "20250416"
    taxable_amount := some 1000
    cgst_amount := some 90
    sgst_amount := some 90
    igst_amount := none
    total_amount := some 1180
    currency := some "INR"
    line_items := [] }

/-- A concrete igst-only InvoiceFields value (rate 5) used by the closed
witness theorems. -/
def sampleFieldsIgst : InvoiceFields :=
  { party_name := "Global Electrical And Marine Services"
    party_tax_id := none
    invoice_number := some "INV002"
    invoice_date := some "20250417"
    taxable_amount := some 1000
    cgst_amount := none
    sgst_amount := none
    igst_amount := some 50
    total_amount := some 1050
    currency := some "INR"
    line_items := [] }

/-- A concrete Completed Sales job with two Success results at GST rates
18 and 5, used by the closed witness theorems. -/
def sampleJob : Job :=
  { job_id := "job-c4"
    status := JobStatus.Completed
    file_count := 2
    results := [successEntry "gemini-flash" 0 sampleFields,
                successEntry "gemini-flash" 1 sampleFieldsIgst]
    company_name := "ACME"
    transaction_type := TransactionType.Sales }

end InvoiceExtractor

namespace InvoiceExtractor

/-! ## Structure lemmas for the defensive parse -/

theorem suffixFromChar_eq_none {c : Char} {t : List Char} :
    suffixFromChar c t = none ↔ c ∉ t := by
  induction t with
  | nil => simp [suffixFromChar]
  | cons a as ih =>
    by_cases hac : a = c
    · subst hac
      simp [suffixFromChar]
    · rw [suffixFromChar, if_neg hac, ih]
      constructor
      · intro h
        simp only [List.mem_cons, not_or]
        exact ⟨fun hc => hac hc.symm, h⟩
      · intro h hmem
        exact h (List.mem_cons_of_mem _ hmem)

theorem suffixFromChar_eq_some {c : Char} {t s : List Char}
    (h : suffixFromChar c t = some s) :
    ∃ a, t = a ++ s ∧ c ∉ a ∧ s.head? = some c := by
  induction t with
  | nil => simp [suffixFromChar] at h
  | cons x xs ih =>
    by_cases hxc : x = c
    · subst hxc
      simp [suffixFromChar] at h
      exact ⟨[], by simp [h.symm], by simp, by rw [← h]; rfl⟩
    · rw [suffixFromChar, if_neg hxc] at h
      obtain ⟨a, hsplit, hmem, hhead⟩ := ih h
      exact ⟨x :: a, by simp [hsplit], by
        simp only [List.mem_cons, not_or]
        exact ⟨fun hx => hxc hx.symm, hmem⟩, hhead⟩

theorem prefixToChar_eq_none {c : Char} {t : List Char} :
    prefixToChar c t = none ↔ c ∉ t := by
  unfold prefixToChar
  cases hs : suffixFromChar c t.reverse with
  | none =>
    have := suffixFromChar_eq_none.mp hs
    simp only [List.mem_reverse] at this
    simp [this]
  | some r =>
    have : c ∈ t.reverse := by
      by_contra hnone
      rw [suffixFromChar_eq_none.mpr hnone] at hs
      exact Option.noConfusion hs
    simp only [List.mem_reverse] at this
    simp [this]

theorem prefixToChar_eq_some {c : Char} {t s : List Char}
    (h : prefixToChar c t = some s) :
    ∃ b, t = s ++ b ∧ c ∉ b ∧ s.getLast? = some c := by
  unfold prefixToChar at h
  cases hs : suffixFromChar c t.reverse with
  | none => rw [hs] at h; exact Option.noConfusion h
  | some r =>
    rw [hs] at h
    obtain ⟨a, hsplit, hmem, hhead⟩ := suffixFromChar_eq_some hs
    refine ⟨a.reverse, ?_, by simpa using hmem, ?_⟩
    · have := congrArg List.reverse hsplit
      simp only [List.reverse_reverse, List.reverse_append] at this
      simp only [← (Option.some.injEq _ _).mp h]
      exact this
    · simp only [← (Option.some.injEq _ _).mp h, List.getLast?_reverse]
      exact hhead

/-! ## Structure lemmas for the Batch Job Engine -/

theorem chunkListAux_flatten (n : Nat) :
    ∀ (fuel : Nat) (l : List α), (chunkListAux n fuel l).flatten = l := by
  intro fuel
  induction fuel with
  | zero =>
    intro l
    cases l <;> simp [chunkListAux]
  | succ fuel ih =>
    intro l
    cases l with
    | nil => simp [chunkListAux]
    | cons x xs =>
      rw [chunkListAux]
      by_cases hn : n = 0
      · simp [hn]
      · rw [if_neg hn]
        rw [List.flatten_cons, ih, List.take_append_drop]

theorem chunkList_flatten (n : Nat) (l : List α) : (chunkList n l).flatten = l :=
  chunkListAux_flatten n l.length l

theorem pairEntries_map_source (pid : String) (bs : List (Nat × β)) :
    ∀ es, (pairEntries pid bs es).map (fun r => r.source_file_id) =
      bs.map Prod.fst := by
  induction bs with
  | nil =>
    intro es
    cases es <;> rfl
  | cons b bs ih =>
    intro es
    obtain ⟨i, x⟩ := b
    cases es with
    | nil => simp [pairEntries, failedEntry, ih]
    | cons f fs => simp [pairEntries, successEntry, ih]

theorem processBatch_map_source (pe : List Char → List InvoiceFields)
    (pf : List β → List (String × ProviderReply)) (batch : List (Nat × β)) :
    (processBatch pe pf batch).map (fun r => r.source_file_id) =
      batch.map Prod.fst := by
  unfold processBatch
  cases hloop : runProviderLoop (fun t => Except.ok (pe t))
      (pf (batch.map Prod.snd)) with
  | ok pr =>
    obtain ⟨pid, es⟩ := pr
    exact pairEntries_map_source pid batch es
  | error e => simp [failedEntry, List.map_map, Function.comp]

theorem processJob_map_source (pe : List Char → List InvoiceFields)
    (pf : List β → List (String × ProviderReply)) (B : Nat) (files : List β) :
    (processJob pe pf B files).map (fun r => r.source_file_id) =
      List.range files.length := by
  unfold processJob
  rw [List.map_flatten, List.map_map]
  have hcong : (chunkList B files.enum).map
        (List.map (fun r => r.source_file_id) ∘ processBatch pe pf) =
      (chunkList B files.enum).map (List.map Prod.fst) :=
    List.map_congr_left fun b _ => processBatch_map_source pe pf b
  rw [hcong, ← List.map_flatten, chunkList_flatten, List.enum_map_fst]

theorem processJob_length (pe : List Char → List InvoiceFields)
    (pf : List β → List (String × ProviderReply)) (B : Nat) (files : List β) :
    (processJob pe pf B files).length = files.length := by
  have h := congrArg List.length (processJob_map_source pe pf B files)
  simpa using h

theorem foldl_recordResult_results (rs : List ExtractionResult) :
    ∀ j : Job, (rs.foldl recordResult j).results = j.results ++ rs := by
  induction rs with
  | nil => intro j; simp
  | cons r rs ih =>
    intro j
    rw [List.foldl_cons, ih]
    simp [recordResult]

theorem foldl_recordResult_file_count (rs : List ExtractionResult) :
    ∀ j : Job, (rs.foldl recordResult j).file_count = j.file_count := by
  induction rs with
  | nil => intro j; rfl
  | cons r rs ih =>
    intro j
    rw [List.foldl_cons, ih]
    rfl

theorem foldl_recordResult_status (rs : List ExtractionResult) (hne : rs ≠ []) :
    ∀ j : Job, (rs.foldl recordResult j).status =
      if j.results.length + rs.length = j.file_count then JobStatus.Completed
      else JobStatus.Processing := by
  induction rs with
  | nil => exact absurd rfl hne
  | cons r rs ih =>
    intro j
    rw [List.foldl_cons]
    cases rs with
    | nil => simp [recordResult]
    | cons r2 rs2 =>
      rw [ih (by simp)]
      simp only [recordResult, List.length_append, List.length_cons,
        List.length_nil]
      by_cases hcond : j.results.length + (rs2.length + 1 + 1) = j.file_count
      · rw [if_pos (by omega), if_pos (by omega)]
      · rw [if_neg (by omega), if_neg (by omega)]

theorem runJob_results (pe : List Char → List InvoiceFields)
    (pf : List β → List (String × ProviderReply)) (B : Nat) (files : List β)
    (jid co : String) (tt : TransactionType) :
    (runJob pe pf B files jid co tt).results = processJob pe pf B files := by
  unfold runJob
  rw [foldl_recordResult_results]
  rfl

theorem runJob_file_count (pe : List Char → List InvoiceFields)
    (pf : List β → List (String × ProviderReply)) (B : Nat) (files : List β)
    (jid co : String) (tt : TransactionType) :
    (runJob pe pf B files jid co tt).file_count = files.length := by
  unfold runJob
  rw [foldl_recordResult_file_count]
  rfl

theorem runJob_status_completed (pe : List Char → List InvoiceFields)
    (pf : List β → List (String × ProviderReply)) (B : Nat) (files : List β)
    (jid co : String) (tt : TransactionType) (hne : files ≠ []) :
    (runJob pe pf B files jid co tt).status = JobStatus.Completed := by
  unfold runJob
  have hlen := processJob_length pe pf B files
  have hpne : processJob pe pf B files ≠ [] := by
    intro hnil
    rw [hnil] at hlen
    exact hne (List.length_eq_zero.mp hlen.symm)
  rw [foldl_recordResult_status _ hpne]
  simp [createJob, hlen]

theorem pairEntries_length (pid : String) (bs : List (Nat × β))
    (es : List InvoiceFields) : (pairEntries pid bs es).length = bs.length := by
  have h := congrArg List.length (pairEntries_map_source pid bs es)
  simpa using h

theorem pairEntries_getElem (pid : String) (bs : List (Nat × β)) :
    ∀ (es : List InvoiceFields) (i : Nat) (hb : i < bs.length)
      (hr : i < (pairEntries pid bs es).length),
      (pairEntries pid bs es)[i] =
        if hi : i < es.length then successEntry pid (bs[i]).1 es[i]
        else { failedEntry (bs[i]).1 "batch response shortfall" with
                 provider_used := some pid } := by
  induction bs with
  | nil =>
    intro es i hb hr
    exact absurd hb (by simp)
  | cons b bs ih =>
    intro es i hb hr
    obtain ⟨idx, x⟩ := b
    cases es with
    | nil =>
      cases i with
      | zero => simp [pairEntries]
      | succ i =>
        have hb2 : i < bs.length := by simpa using hb
        have hr2 : i < (pairEntries pid bs []).length := by
          rw [pairEntries_length]
          exact hb2
        simp only [pairEntries, List.getElem_cons_succ]
        rw [ih [] i hb2 hr2]
        simp
    | cons f fs =>
      cases i with
      | zero => simp [pairEntries]
      | succ i =>
        have hb2 : i < bs.length := by simpa using hb
        have hr2 : i < (pairEntries pid bs fs).length := by
          rw [pairEntries_length]
          exact hb2
        simp only [pairEntries, List.getElem_cons_succ]
        rw [ih fs i hb2 hr2]
        by_cases hi : i < fs.length
        · rw [dif_pos hi, dif_pos (by simpa using Nat.succ_lt_succ hi)]
        · rw [dif_neg hi,
            dif_neg (by simpa using fun h => hi (Nat.lt_of_succ_lt_succ h))]

/-! ## Structure lemmas for the Ledger Synthesis Engine -/

theorem roundNearest_eq_round (p q : ℤ) (hq : 0 < q) :
    roundNearest p q = round ((p : ℚ) / (q : ℚ)) := by
  rw [round_eq, roundNearest]
  have harith : (p : ℚ) / (q : ℚ) + 1 / 2 =
      ((2 * p + q : ℤ) : ℚ) / (((2 * q).toNat : ℕ) : ℚ) := by
    have h2q : (((2 * q).toNat : ℕ) : ℚ) = ((2 * q : ℤ) : ℚ) := by
      have h := Int.toNat_of_nonneg (by omega : (0:ℤ) ≤ 2 * q)
      exact_mod_cast congrArg (fun z : ℤ => (z : ℚ)) h
    have hq0 : (q : ℚ) ≠ 0 := Int.cast_ne_zero.mpr (by omega)
    rw [h2q]
    push_cast
    field_simp
    ring
  rw [harith, Rat.floor_intCast_div_natCast]
  rw [Int.toNat_of_nonneg (by omega : (0:ℤ) ≤ 2 * q)]

theorem filter_isSome_tax (tt : TransactionType) (parties : List String)
    (rates : List ℤ) :
    ((parties.map (fun n =>
        (n, ({ parent_group := partyGroupName tt, tax_rate := none } : LedgerInfo))) ++
      [(principalLedgerName tt,
        ({ parent_group := principalGroupName tt, tax_rate := none } : LedgerInfo))] ++
      rates.map (fun r =>
        (taxLedgerName tt r,
         ({ parent_group := "Duties & Taxes", tax_rate := some r } : LedgerInfo)))).filter
        (fun p => (Prod.snd p).tax_rate.isSome)) =
      rates.map (fun r =>
        (taxLedgerName tt r,
         ({ parent_group := "Duties & Taxes", tax_rate := some r } : LedgerInfo))) := by
  rw [List.filter_append, List.filter_append, List.filter_map, List.filter_map]
  rw [show ((fun p : String × LedgerInfo => (Prod.snd p).tax_rate.isSome) ∘
      fun n : String =>
        (n, ({ parent_group := partyGroupName tt, tax_rate := none } : LedgerInfo))) =
      (fun _ => false) from rfl]
  rw [show ((fun p : String × LedgerInfo => (Prod.snd p).tax_rate.isSome) ∘
      fun r : ℤ =>
        (taxLedgerName tt r,
         ({ parent_group := "Duties & Taxes", tax_rate := some r } : LedgerInfo))) =
      (fun _ => true) from rfl]
  simp [List.filter]

end InvoiceExtractor

namespace InvoiceExtractor

/-! ## Theorems for the frontend claims -/

/-- C9: an add operation (handleFilesSelection with shouldAdd = true on a
non-empty current selection) returns the existing list followed by exactly
the newly chosen files whose MIME type is on the allow-list and whose name
differs from every already-selected file name; name collision alone drops
a new file, regardless of its content. -/
theorem handleFilesSelection_add_eq (selectedFiles files : List JsFile)
    (hne : selectedFiles ≠ []) :
    handleFilesSelection selectedFiles files true =
      selectedFiles ++
        files.filter (fun f =>
          f.type ∈ validTypes ∧ f.name ∉ selectedFiles.map (fun g => g.name)) := by
  unfold handleFilesSelection
  have hpos : selectedFiles.length > 0 := List.length_pos.mpr hne
  rw [if_pos ⟨rfl, hpos⟩]
  simp only [List.filter_filter]
  refine congrArg _ (List.filter_congr fun a _ => ?_)
  simp [Bool.and_comm]

/-- Witness for C9: adding to the one-element selection [a.jpg] a chosen
pair consisting of a same-named file with different content and a text
file keeps the selection unchanged, while a fresh png is appended. -/
theorem handleFilesSelection_add_eq_witness :
    handleFilesSelection
        [⟨"a.jpg", "image/jpeg", [1]⟩]
        [⟨"a.jpg", "image/jpeg", [2]⟩, ⟨"b.txt", "text/plain", [3]⟩,
         ⟨"c.png", "image/png", [4]⟩] true =
      [⟨"a.jpg", "image/jpeg", [1]⟩, ⟨"c.png", "image/png", [4]⟩] := by
  rw [handleFilesSelection_add_eq [⟨"a.jpg", "image/jpeg", [1]⟩] _ (by decide)]
  decide

/-- C10: with an empty selected-files list, both handleUpload and
handleBulkUpload set the error message "Please select at least one file
first" and return without sending any HTTP request and without entering
any loading state, for every format and request outcome. -/
theorem emptySelection_upload_blocked (format : String) (requestOk : Bool) :
    handleUpload [] requestOk =
      { error := some "Please select at least one file first"
        requestSent := false
        enteredLoading := false } ∧
    handleBulkUpload [] format requestOk =
      { error := some "Please select at least one file first"
        requestSent := false
        enteredLoading := false } := by
  constructor <;> rfl

/-- C6: the Extraction Client parses exactly the substring of the provider
text from the first opening brace to the last closing brace (the text
decomposes as a ++ s ++ b with no opening brace in a and no closing brace
in b); absence of the braces, or a parse failure on that substring, yields
the error "unparseable provider response", and the client is a total
function (no exception escapes). -/
theorem parseProviderResponse_defensive
    (parse : List Char → Option InvoiceFields) (t : List Char) :
    (('{' ∉ t ∨ '}' ∉ t) →
      parseProviderResponse parse t = Except.error "unparseable provider response") ∧
    (∀ s, jsonSlice t = some s →
      (∃ a b, t = a ++ s ++ b ∧ '{' ∉ a ∧ '}' ∉ b ∧
        s.head? = some '{' ∧ s.getLast? = some '}') ∧
      (parse s = none →
        parseProviderResponse parse t = Except.error "unparseable provider response") ∧
      (∀ f, parse s = some f → parseProviderResponse parse t = Except.ok f)) := by
  constructor
  · intro hbrace
    have hnone : jsonSlice t = none := by
      unfold jsonSlice
      cases hbrace with
      | inl hop =>
        rw [suffixFromChar_eq_none.mpr hop]
      | inr hcl =>
        cases hu : suffixFromChar '{' t with
        | none => rfl
        | some u =>
          obtain ⟨a, hsplit, -, -⟩ := suffixFromChar_eq_some hu
          have hclu : '}' ∉ u := fun hmem =>
            hcl (hsplit ▸ List.mem_append_right a hmem)
          exact prefixToChar_eq_none.mpr hclu
    unfold parseProviderResponse
    simp only [hnone]
  · intro s hslice
    have hstruct : ∃ a b, t = a ++ s ++ b ∧ '{' ∉ a ∧ '}' ∉ b ∧
        s.head? = some '{' ∧ s.getLast? = some '}' := by
      unfold jsonSlice at hslice
      cases hu : suffixFromChar '{' t with
      | none => rw [hu] at hslice; exact Option.noConfusion hslice
      | some u =>
        rw [hu] at hslice
        obtain ⟨a, hsplit, hopa, hheadu⟩ := suffixFromChar_eq_some hu
        obtain ⟨b, husplit, hclb, hlast⟩ := prefixToChar_eq_some hslice
        have hsne : s ≠ [] := by
          intro hnil
          rw [hnil] at hlast
          exact Option.noConfusion hlast
        have hheads : s.head? = some '{' := by
          rw [husplit] at hheadu
          cases s with
          | nil => exact absurd rfl hsne
          | cons x xs => exact hheadu
        exact ⟨a, b, by rw [hsplit, husplit, List.append_assoc], hopa, hclb,
          hheads, hlast⟩
    refine ⟨hstruct, ?_, ?_⟩
    · intro hnoparse
      unfold parseProviderResponse
      simp only [hslice, hnoparse]
    · intro f hparse
      unfold parseProviderResponse
      simp only [hslice, hparse]

/-- Witness for C6: on the braceless text "no json" the client reports the
unparseable-response error (for the parser rejecting everything), and on
a well-braced text the all-accepting parser receives the exact slice. -/
theorem parseProviderResponse_defensive_witness :
    ('{' ∉ String.toList "no json" ∨ '}' ∉ String.toList "no json") ∧
    parseProviderResponse (fun _ => none) (String.toList "no json") =
      Except.error "unparseable provider response" :=
  ⟨Or.inl (by decide),
    (parseProviderResponse_defensive (fun _ => none) (String.toList "no json")).1
      (Or.inl (by decide))⟩

/-- C5: when a first call to extract with bypassCache false returns a
Success result, a second call with the same content fingerprint on the
cache the first call left behind returns a Success result with from_cache
true and the same InvoiceFields, whatever parser and provider replies the
second call sees. -/
theorem extract_idempotent (parse parse2 : List Char → Option InvoiceFields)
    (providers providers2 : List (String × ProviderReply))
    (fid fid2 : Nat) (cache : ContentCache) (contentHash : String)
    (hs : (extract parse providers fid cache contentHash false).1.status =
      ResultStatus.Success) :
    (extract parse2 providers2 fid2
        (extract parse providers fid cache contentHash false).2
        contentHash false).1.status = ResultStatus.Success ∧
    (extract parse2 providers2 fid2
        (extract parse providers fid cache contentHash false).2
        contentHash false).1.from_cache = true ∧
    (extract parse2 providers2 fid2
        (extract parse providers fid cache contentHash false).2
        contentHash false).1.fields =
      (extract parse providers fid cache contentHash false).1.fields := by
  unfold extract at hs ⊢
  simp only [if_neg (Bool.false_ne_true)] at hs ⊢
  cases hc : cacheLookup cache contentHash with
  | some f =>
    simp only [hc]
    simp [cacheLookup, hc]
  | none =>
    simp only [hc] at hs ⊢
    cases hp : runProviderLoop (fun t => parseProviderResponse parse t) providers with
    | ok pf =>
      obtain ⟨pid, f⟩ := pf
      simp only [hp] at hs ⊢
      simp [cacheLookup]
    | error e =>
      simp only [hp] at hs
      exact absurd hs (by simp)

/-- Witness for C5: a concrete first call that hits the provider loop
succeeds, and the second call is served from the cache with the same
fields. -/
theorem extract_idempotent_witness :
    ((extract (fun _ => some sampleFields)
        [("gemini-flash", ProviderReply.replyText ['a', '{', 'x', '}', 'b'])]
        0 [] "hash1" false).1.status = ResultStatus.Success) ∧
    ((extract (fun _ => none) [] 1
        (extract (fun _ => some sampleFields)
          [("gemini-flash", ProviderReply.replyText ['a', '{', 'x', '}', 'b'])]
          0 [] "hash1" false).2
        "hash1" false).1.from_cache = true) := by
  have h1 : (extract (fun _ => some sampleFields)
      [("gemini-flash", ProviderReply.replyText ['a', '{', 'x', '}', 'b'])]
      0 [] "hash1" false).1.status = ResultStatus.Success := by rfl
  exact ⟨h1,
    (extract_idempotent (fun _ => some sampleFields) (fun _ => none)
      [("gemini-flash", ProviderReply.replyText ['a', '{', 'x', '}', 'b'])]
      [] 0 1 [] "hash1" h1).2.1⟩

/-- C3: for every job the results sequence has length equal to file_count,
and its i-th element carries source_file_id i, the identifier assigned to
the i-th file in original submission order, for every batch size and every
provider behaviour. -/
theorem job_results_order (pe : List Char → List InvoiceFields)
    (pf : List β → List (String × ProviderReply)) (B : Nat) (files : List β)
    (jid co : String) (tt : TransactionType) :
    (runJob pe pf B files jid co tt).results.length =
      (runJob pe pf B files jid co tt).file_count ∧
    (runJob pe pf B files jid co tt).file_count = files.length ∧
    ∀ i (h : i < (runJob pe pf B files jid co tt).results.length),
      (((runJob pe pf B files jid co tt).results)[i]).source_file_id = i := by
  have hres := runJob_results pe pf B files jid co tt
  have hfc := runJob_file_count pe pf B files jid co tt
  have hlen := processJob_length pe pf B files
  refine ⟨by rw [hres, hfc, hlen], hfc, ?_⟩
  intro i h
  simp only [hres] at h ⊢
  have h2 : i < files.length := by
    have := processJob_length pe pf B files
    omega
  have hmlen : i < ((processJob pe pf B files).map
      (fun r => r.source_file_id)).length := by
    simpa using h
  have hgm : ((processJob pe pf B files).map (fun r => r.source_file_id))[i] = i := by
    simp only [processJob_map_source]
    exact List.getElem_range i (by simpa using h2)
  rwa [List.getElem_map] at hgm

/-- Witness for C3: a three-file job processed in batches of two has three
results and the result at index 1 carries source_file_id 1. -/
theorem job_results_order_witness :
    (1 < (runJob (fun _ => [sampleFields])
        (fun _ => [("gemini-flash", ProviderReply.replyText ['{', '}'])]) 2
        ["a", "b", "c"] "job1" "ACME" TransactionType.Sales).results.length) ∧
    (((runJob (fun _ => [sampleFields])
        (fun _ => [("gemini-flash", ProviderReply.replyText ['{', '}'])]) 2
        ["a", "b", "c"] "job1" "ACME" TransactionType.Sales).results).get
      ⟨1, by decide⟩).source_file_id = 1 := by
  refine ⟨by decide, ?_⟩
  exact (job_results_order (fun _ => [sampleFields])
    (fun _ => [("gemini-flash", ProviderReply.replyText ['{', '}'])]) 2
    ["a", "b", "c"] "job1" "ACME" TransactionType.Sales).2.2 1 (by decide)

/-- C7: every job whose files all carry a terminal result is Completed,
whatever the individual outcomes (per-file failures never fail the job),
and when the three documented providers all reply quota-exceeded, every
file's result is Failed with error detail "all providers exhausted" while
the job still reaches Completed. -/
theorem job_terminal_completion (pe : List Char → List InvoiceFields)
    (pf : List β → List (String × ProviderReply)) (B : Nat) (files : List β)
    (jid co : String) (tt : TransactionType) (hne : files ≠ []) :
    (runJob pe pf B files jid co tt).status = JobStatus.Completed ∧
    (runJob pe pf B files jid co tt).results.length =
      (runJob pe pf B files jid co tt).file_count ∧
    (runJob pe (fun _ => threeQuotaExceeded) B files jid co tt).status =
      JobStatus.Completed ∧
    ∀ r ∈ (runJob pe (fun _ => threeQuotaExceeded) B files jid co tt).results,
      r.status = ResultStatus.Failed ∧
      r.error_detail = some "all providers exhausted" := by
  refine ⟨runJob_status_completed pe pf B files jid co tt hne, ?_,
    runJob_status_completed pe _ B files jid co tt hne, ?_⟩
  · rw [runJob_results, runJob_file_count, processJob_length]
  · intro r hr
    rw [runJob_results] at hr
    unfold processJob at hr
    rw [List.mem_flatten] at hr
    obtain ⟨l, hl, hrl⟩ := hr
    rw [List.mem_map] at hl
    obtain ⟨b, hb, rfl⟩ := hl
    have hbatch : processBatch pe (fun _ => threeQuotaExceeded) b =
        b.map (fun p => failedEntry p.1 "all providers exhausted") := rfl
    rw [hbatch, List.mem_map] at hrl
    obtain ⟨p, hp, rfl⟩ := hrl
    exact ⟨rfl, rfl⟩

/-- Witness for C7: a concrete two-file job against the all-quota-exceeded
registry completes, and its first result is Failed with the exhaustion
error. -/
theorem job_terminal_completion_witness :
    (runJob (fun _ => []) (fun _ : List String => threeQuotaExceeded) 5
        ["f1", "f2"] "job2" "ACME" TransactionType.Purchase).status =
      JobStatus.Completed ∧
    ∀ r ∈ (runJob (fun _ => []) (fun _ : List String => threeQuotaExceeded) 5
        ["f1", "f2"] "job2" "ACME" TransactionType.Purchase).results,
      r.status = ResultStatus.Failed ∧
      r.error_detail = some "all providers exhausted" := by
  have h := job_terminal_completion (fun _ => [])
    (fun _ : List String => threeQuotaExceeded) 5 ["f1", "f2"] "job2" "ACME"
    TransactionType.Purchase (by decide)
  exact ⟨h.2.2.1, h.2.2.2⟩

/-- C8: when the provider response for a batch yields fewer parseable
entries than submitted files, the leading files of the batch, in
submission order, receive Success results matched positionally to the
entries; every file at an index at or beyond the entry count receives a
Failed result. -/
theorem batch_partial_shortfall (pe : List Char → List InvoiceFields)
    (pid : String) (t : List Char) (batch : List (Nat × β))
    (pf : List β → List (String × ProviderReply))
    (hprov : pf (batch.map Prod.snd) = [(pid, ProviderReply.replyText t)]) :
    (processBatch pe pf batch).length = batch.length ∧
    (∀ i (hb : i < batch.length) (hi : i < (pe t).length)
       (hr : i < (processBatch pe pf batch).length),
       (processBatch pe pf batch)[i] = successEntry pid (batch[i]).1 ((pe t)[i])) ∧
    (∀ i (hb : i < batch.length) (hi : (pe t).length ≤ i)
       (hr : i < (processBatch pe pf batch).length),
       ((processBatch pe pf batch)[i]).status = ResultStatus.Failed ∧
       ((processBatch pe pf batch)[i]).source_file_id = (batch[i]).1) := by
  have hpb : processBatch pe pf batch = pairEntries pid batch (pe t) := by
    unfold processBatch
    rw [hprov]
    rfl
  refine ⟨by rw [hpb, pairEntries_length], ?_, ?_⟩
  · intro i hb hi hr
    simp only [hpb] at hr ⊢
    rw [pairEntries_getElem pid batch (pe t) i hb hr, dif_pos hi]
  · intro i hb hi hr
    simp only [hpb] at hr ⊢
    rw [pairEntries_getElem pid batch (pe t) i hb hr,
      dif_neg (by omega : ¬ i < (pe t).length)]
    exact ⟨rfl, rfl⟩

/-- Witness for C8: a batch of five files whose response parses into three
entries gives Success to the file at index 2 and Failed to the file at
index 4. -/
theorem batch_partial_shortfall_witness :
    (processBatch (fun _ => [sampleFields, sampleFields, sampleFields])
        (fun _ => [("gemini-flash", ProviderReply.replyText ['{', '}'])])
        [(0, "a"), (1, "b"), (2, "c"), (3, "d"), (4, "e")]).length = 5 ∧
    ((processBatch (fun _ => [sampleFields, sampleFields, sampleFields])
        (fun _ => [("gemini-flash", ProviderReply.replyText ['{', '}'])])
        [(0, "a"), (1, "b"), (2, "c"), (3, "d"), (4, "e")]).get
      ⟨2, by decide⟩).status = ResultStatus.Success ∧
    ((processBatch (fun _ => [sampleFields, sampleFields, sampleFields])
        (fun _ => [("gemini-flash", ProviderReply.replyText ['{', '}'])])
        [(0, "a"), (1, "b"), (2, "c"), (3, "d"), (4, "e")]).get
      ⟨4, by decide⟩).status = ResultStatus.Failed := by
  have h := batch_partial_shortfall
    (fun _ => [sampleFields, sampleFields, sampleFields]) "gemini-flash" ['{', '}']
    [(0, "a"), (1, "b"), (2, "c"), (3, "d"), (4, "e")]
    (fun _ => [("gemini-flash", ProviderReply.replyText ['{', '}'])]) rfl
  exact ⟨h.1, by decide, (h.2.2 4 (by decide) (by decide) (by decide)).1⟩

/-- C2: for a Success result whose cgst_amount and sgst_amount are present
and whose taxable_amount is positive, the effective GST rate is the
nearest integer to (cgst + sgst) / taxable * 100; when only igst_amount
is present it is the nearest integer to igst / taxable * 100; in
particular taxable 1000, cgst 90, sgst 90 gives rate 18 and taxable 1000,
igst 50 gives rate 5. -/
theorem gst_rate_detection (f : InvoiceFields) (t c s ig : ℤ) :
    (f.taxable_amount = some t → 0 < t → f.cgst_amount = some c →
      f.sgst_amount = some s →
      effectiveGstRate f = some (round (((c : ℚ) + (s : ℚ)) / (t : ℚ) * 100))) ∧
    (f.taxable_amount = some t → 0 < t → f.cgst_amount = none →
      f.sgst_amount = none → f.igst_amount = some ig →
      effectiveGstRate f = some (round ((ig : ℚ) / (t : ℚ) * 100))) ∧
    effectiveGstRate sampleFields = some 18 ∧
    effectiveGstRate sampleFieldsIgst = some 5 := by
  refine ⟨?_, ?_, by decide, by decide⟩
  · intro ht htpos hc hs
    unfold effectiveGstRate
    simp only [ht, hc, hs, if_pos htpos]
    rw [roundNearest_eq_round ((c + s) * 100) t htpos]
    congr 1
    push_cast
    ring
  · intro ht htpos hc hs hig
    unfold effectiveGstRate
    simp only [ht, hc, hs, hig, if_pos htpos]
    rw [roundNearest_eq_round (ig * 100) t htpos]
    congr 1
    push_cast
    ring

/-- Witness for C2: the cgst-and-sgst branch applied at the sample
invoice with taxable 1000, cgst 90, sgst 90. -/
theorem gst_rate_detection_witness :
    effectiveGstRate sampleFields =
      some (round (((90 : ℚ) + (90 : ℚ)) / (1000 : ℚ) * 100)) :=
  (gst_rate_detection sampleFields 1000 90 90 0).1 rfl (by decide) rfl rfl

/-- C1: every voucher emitted by the Ledger Synthesis Engine balances:
its signed entry amounts sum to exactly zero; moreover the tax entries of
a voucher never depend on total_amount, so any remainder is absorbed by
the principal account entry and never by a tax entry. -/
theorem voucher_balance (j : Job) :
    (∀ v ∈ (synthesizeLedger j).vouchers,
      (v.entries.map (fun e => e.amount)).sum = 0) ∧
    (∀ (tt : TransactionType) (f : InvoiceFields) (x : Option ℤ),
      voucherTaxEntries tt { f with total_amount := x } =
        voucherTaxEntries tt f) := by
  constructor
  · intro v hv
    have hv2 : v ∈ (successFields j.results).map
        (makeVoucher j.transaction_type) := hv
    rw [List.mem_map] at hv2
    obtain ⟨f, hf, rfl⟩ := hv2
    simp only [makeVoucher, mkEntry, List.map_cons, List.map_append,
      List.sum_cons, List.sum_append, List.map_nil, List.sum_nil]
    ring
  · intro tt f x
    rfl

/-- Witness for C1: the first voucher of the sample job balances to
zero. -/
theorem voucher_balance_witness :
    ((((synthesizeLedger sampleJob).vouchers.get ⟨0, by decide⟩).entries.map
      (fun e => e.amount)).sum = 0) :=
  (voucher_balance sampleJob).1 _ (List.get_mem _ _ _)

/-- C4: the synthesized document carries exactly one tax ledger per
distinct GST rate observed across the Success results, named from the
transaction type and the rate, and no tax ledger for any other rate: the
tax ledgers are the image of the duplicate-free observed-rate list, whose
members are exactly the rates of the Success results; the sample Sales
job with rates 18 and 5 yields exactly the tax ledgers "Sales - GST 18%"
and "Sales - GST 5%". -/
theorem tax_ledger_stability (j : Job) :
    taxLedgersOf (synthesizeLedger j) =
      (gstRatesFound j.results).map (fun r =>
        (taxLedgerName j.transaction_type r,
         ({ parent_group := "Duties & Taxes", tax_rate := some r } : LedgerInfo))) ∧
    (gstRatesFound j.results).Nodup ∧
    (∀ r : ℤ, r ∈ gstRatesFound j.results ↔
      r ∈ (successFields j.results).filterMap effectiveGstRate) ∧
    (taxLedgersOf (synthesizeLedger sampleJob)).map Prod.fst =
      ["Sales - GST 18%", "Sales - GST 5%"] := by
  refine ⟨?_, List.nodup_dedup _, fun r => List.mem_dedup, by decide⟩
  simp only [taxLedgersOf, synthesizeLedger]
  exact filter_isSome_tax j.transaction_type
    ((successFields j.results).map (fun f => f.party_name)).dedup
    (gstRatesFound j.results)

end InvoiceExtractor
